import Mathlib

/-
Verification of the adaptive-filter core of the padasip repository
(src/padasip/filters/base_filter.py and src/padasip/filters/gngd.py):
a shallow embedding over ℚ of the GNGD filter, the generic batch driver
`run` / `pretrained_run`, and the affine-projection (AP) filter, together
with theorems checking the specification claims against the embedding.
-/

/-- Error message raised by `AdaptiveFilter.init_weights` when the weight
spec is rejected (base_filter.py lines 76, 81, 83). -/
def weightMsg : String := "Impossible to understand the w"

/-- Error message raised by the length validation of `AdaptiveFilter.run`
and `AdaptiveFilterAP.run` (base_filter.py lines 178, 272). -/
def dimMsg : String := "The length of vector d and matrix x must agree."

/-- Error message raised by the numeric-conversion validation of `run`
(base_filter.py lines 185, 279). -/
def convMsg : String := "Impossible to convert x or d to a numpy array"

/-- The uncaught `IndexError` raised by the statement `self.n = len(x[0])`
in `run` (base_filter.py lines 179, 273) when the batch is empty. -/
def indexErrMsg : String := "IndexError: list index out of range"

/-- The uncaught `NameError` raised by `AdaptiveFilter.adapt` at the line
`self.w += learning_rule(self, e, x)` (base_filter.py line 151): the bare
name `learning_rule` is bound nowhere in module base_filter.py, neither at
module level nor in builtins. -/
def nameErrMsg : String := "NameError: name learning_rule is not defined"

/-- Scalar product of two rational vectors, modelling `np.dot` on 1-D
arrays.  numpy raises on a length mismatch; every theorem below applies
`dot` only at equal lengths, where `zipWith` agrees with numpy. -/
def dot (a b : List ℚ) : ℚ := (List.zipWith (fun ai bi => ai * bi) a b).sum

/-- Elementwise vector sum, modelling the numpy `+=` weight update on
equal-length 1-D arrays. -/
def addW (a b : List ℚ) : List ℚ := List.zipWith (fun ai bi => ai + bi) a b

/-- State of a `FilterGNGD` instance: the attributes set by
`AdaptiveFilter.__init__` (`w`, `n`, `w_history`, `mu`, base_filter.py
lines 39-42) and by `FilterGNGD.__init__` (`eps`, `ro`, `last_e`,
`last_x`, gngd.py lines 124-127).  `n` holds whatever Python object was
assigned to it (a number), hence ℚ; `w_history` is `False` (`none`) until
a `run` call stores a history matrix in it. -/
structure FilterGNGD where
  w : List ℚ
  n : ℚ
  mu : ℚ
  eps : ℚ
  ro : ℚ
  last_e : ℚ
  last_x : List ℚ
  w_history : Option (List (List ℚ))
deriving DecidableEq

/-- `AdaptiveFilter.init_weights` (base_filter.py lines 44-84) restricted
to the explicit-numeric-vector branch of the weight spec (the `"random"`
and `"zeros"` string branches call the injected random sampler / numpy
array constructors, which the claims do not exercise): the vector is
accepted iff `len(w) == n`.  The second argument is whatever object the
caller passed for `n` — it is compared numerically with the integer
`len(w)`, hence the type ℚ. -/
def init_weights (w : List ℚ) (n : ℚ) : Except String (List ℚ) :=
  if (w.length : ℚ) = n then .ok w else .error weightMsg

/-- `FilterGNGD.__init__(self, n, mu=1., eps=1., ro=0.1, **kwargs)`
(gngd.py lines 112-127) with an explicit weight vector `w`.  It calls
`super().__init__(n, mu, **kwargs)`, but the base constructor signature
(base_filter.py line 15) is `__init__(self, mu, n, w="random")`, so the
base receives `mu := n` and `n := mu`: the weight vector is validated
against `mu`, the field `self.n` is set to `mu`, and `self.mu` to `n`.
The statement `self.last_x = np.zeros(n)` (gngd.py line 127) uses the
GNGD-level `n` directly. -/
def FilterGNGD_init (n : ℕ) (mu eps ro : ℚ) (w : List ℚ) :
    Except String FilterGNGD :=
  (init_weights w mu).map fun wv =>
    { w := wv, n := mu, mu := (n : ℚ), w_history := none,
      eps := eps, ro := ro, last_e := 0, last_x := List.replicate n 0 }

/-- `FilterGNGD.learning_rule(self, e, x)` (gngd.py lines 129-138):
re-estimates `eps` from the previous call's error and input (the
pre-update `self.eps` appears in the squared denominator), computes the
normalized step `nu` from the freshly assigned `eps`, stores `e` and `x`
for the next call, and returns the weight delta `nu * e * x`.  The result
is the mutated filter state paired with the returned delta. -/
def FilterGNGD.learning_rule (f : FilterGNGD) (e : ℚ) (x : List ℚ) :
    FilterGNGD × List ℚ :=
  let eps1 := f.eps - f.ro * f.mu * e * f.last_e * dot x f.last_x /
      (dot f.last_x f.last_x + f.eps) ^ 2
  let nu := f.mu / (eps1 + dot x x)
  ({ f with eps := eps1, last_e := e, last_x := x },
   x.map (fun xi => nu * e * xi))

/-- `AdaptiveFilter.predict` (base_filter.py lines 86-99):
`np.dot(self.w, x)`. -/
def GNGD.predict (f : FilterGNGD) (x : List ℚ) : ℚ := dot f.w x

/-- `AdaptiveFilter.adapt` (base_filter.py lines 139-151) as inherited by
`FilterGNGD`: it computes `y = self.predict(x)` and `e = d - y`, and then
the line `self.w += learning_rule(self, e, x)` evaluates the bare global
name `learning_rule` (not `self.learning_rule`), which is unbound in the
module, raising `NameError` before any state is mutated. -/
def GNGD.adapt (f : FilterGNGD) (d : ℚ) (x : List ℚ) :
    Except String FilterGNGD :=
  let y := GNGD.predict f x
  let _e := d - y
  .error nameErrMsg

/-- Accumulated result of the adaptation loop of `AdaptiveFilter.run`
(base_filter.py lines 190-195): the filter state after the processed
samples, the output and error sequences, the recorded weight-history rows
(row k is `self.w` before the k-th update), and additionally the values
returned by `self.learning_rule` at each step (not part of the source's
return value; recorded so that theorems can speak about them). -/
structure LoopOut where
  f : FilterGNGD
  y : List ℚ
  e : List ℚ
  hist : List (List ℚ)
  deltas : List (List ℚ)

/-- The adaptation loop of `AdaptiveFilter.run` (base_filter.py lines
190-195) for the GNGD instance, one sample at a time: record `self.w`
into the history, compute `y[k] = self.predict(x[k])` and
`e[k] = d[k] - y[k]`, then `self.w += self.learning_rule(e[k], x[k])`. -/
def GNGD.runLoop : FilterGNGD → List (ℚ × List ℚ) → LoopOut
  | f, [] => ⟨f, [], [], [], []⟩
  | f, (dk, xk) :: rest =>
    let e := dk - GNGD.predict f xk
    let p := FilterGNGD.learning_rule f e xk
    let r := GNGD.runLoop { p.1 with w := addW p.1.w p.2 } rest
    ⟨r.f, GNGD.predict f xk :: r.y, e :: r.e, f.w :: r.hist, p.2 :: r.deltas⟩

/-- A Python scalar as supplied to `run`: either a numeric value or an
object that `np.array(·)` cannot coerce to a numeric array. -/
inductive PyVal
  | num (q : ℚ)
  | nonNumeric
deriving DecidableEq

/-- Numeric coercion of one scalar. -/
def PyVal.toNum : PyVal → Option ℚ
  | .num q => some q
  | .nonNumeric => none

/-- Coercion of a 1-D argument by `np.array`, failing if any entry is
non-numeric. -/
def convList : List PyVal → Option (List ℚ)
  | [] => some []
  | v :: rest =>
    match v.toNum, convList rest with
    | some q, some t => some (q :: t)
    | _, _ => none

/-- Coercion of the 2-D argument `x` by `np.array`, row by row. -/
def convMat : List (List PyVal) → Option (List (List ℚ))
  | [] => some []
  | r :: rest =>
    match convList r, convMat rest with
    | some rq, some t => some (rq :: t)
    | _, _ => none

/-- The `try: x = np.array(x); d = np.array(d) except: raise` block of
`run` (base_filter.py lines 181-185): both arguments must coerce. -/
def npConvert (d : List PyVal) (x : List (List PyVal)) :
    Option (List ℚ × List (List ℚ)) :=
  match convList d, convMat x with
  | some dq, some xq => some (dq, xq)
  | _, _ => none

/-- `AdaptiveFilter.run(self, d, x)` (base_filter.py lines 153-196) for
the GNGD instance.  In source order: `N = len(x)`; raise `ValueError` if
`len(d) != N`; `self.n = len(x[0])` (an uncaught `IndexError` on an empty
batch, and a mutation of `self.n` that precedes the conversion check);
coerce `d` and `x`, raising `ValueError` on failure; run the adaptation
loop; return `(y, e, self.w_history)`.  Errors carry the filter state at
the moment of the raise, so that theorems can speak about mutations that
happened before a failed validation. -/
def GNGD.run (f : FilterGNGD) (d : List PyVal) (x : List (List PyVal)) :
    Except (String × FilterGNGD)
      ((List ℚ × List ℚ × List (List ℚ)) × FilterGNGD) :=
  if d.length = x.length then
    match x with
    | [] => .error (indexErrMsg, f)
    | x0 :: _ =>
      let f1 : FilterGNGD := { f with n := (x0.length : ℚ) }
      match npConvert d x with
      | some (dq, xq) =>
        let r := GNGD.runLoop f1 (dq.zip xq)
        .ok ((r.y, r.e, r.hist), { r.f with w_history := some r.hist })
      | none => .error (convMsg, f1)
  else .error (dimMsg, f)

/-- `run` applied to already-numeric data (the usual case in the claims):
every scalar is wrapped as a numeric `PyVal`. -/
def GNGD.runQ (f : FilterGNGD) (d : List ℚ) (x : List (List ℚ)) :
    Except (String × FilterGNGD)
      ((List ℚ × List ℚ × List (List ℚ)) × FilterGNGD) :=
  GNGD.run f (d.map PyVal.num) (x.map (fun r => r.map PyVal.num))

/-- The sequence of deltas returned by `self.learning_rule` during
`run(d, x)` on numeric data: the loop is entered with `self.n` already
rebound to the width of the first row, exactly as `run` does. -/
def GNGD.runDeltas (f : FilterGNGD) (d : List ℚ) (x : List (List ℚ)) :
    List (List ℚ) :=
  (GNGD.runLoop { f with n := ((x.headD []).length : ℚ) } (d.zip x)).deltas

/-- The training phase of `AdaptiveFilter.pretrained_run` (base_filter.py
lines 132-134): `epochs` successive calls of `self.run` on the training
slice, keeping only the adapted filter state (outputs are discarded);
a raise inside any epoch propagates. -/
def GNGD.trainLoop (d : List PyVal) (x : List (List PyVal)) :
    ℕ → FilterGNGD → Except (String × FilterGNGD) FilterGNGD
  | 0, f => .ok f
  | Nat.succ k, f =>
    match GNGD.run f d x with
    | .ok (_, f1) => GNGD.trainLoop d x k f1
    | .error err => .error err

/-- `AdaptiveFilter.pretrained_run(self, d, x, ntrain=0.5, epochs=1)`
(base_filter.py lines 101-137) for the GNGD instance:
`Ntrain = int(len(d)*ntrain)`, then `epochs` training runs on the first
`Ntrain` samples, then one run on the remaining samples whose triple is
returned.  For `ntrain ≥ 0` (its documented range is a ratio in [0, 1]),
Python's `int(·)` truncation coincides with the floor used here; negative
`ntrain` (Python's negative-index slicing) is outside the model. -/
def GNGD.pretrained_run (f : FilterGNGD) (d : List PyVal)
    (x : List (List PyVal)) (ntrain : ℚ) (epochs : ℕ) :
    Except (String × FilterGNGD)
      ((List ℚ × List ℚ × List (List ℚ)) × FilterGNGD) :=
  let Ntrain : ℕ := ⌊(d.length : ℚ) * ntrain⌋.toNat
  match GNGD.trainLoop (d.take Ntrain) (x.take Ntrain) epochs f with
  | .ok f1 => GNGD.run f1 (d.drop Ntrain) (x.drop Ntrain)
  | .error err => .error err

/-- The GNGD learning rule never mutates the weight vector itself; the
weight update is applied by the caller (`adapt` / `run`). -/
theorem learning_rule_fst_w (f : FilterGNGD) (e : ℚ) (x : List ℚ) :
    (FilterGNGD.learning_rule f e x).1.w = f.w := rfl

/-- The first recorded weight-history row of the adaptation loop is the
weight vector at entry. -/
theorem runLoop_hist_head (f : FilterGNGD) (ps : List (ℚ × List ℚ))
    (h : ps ≠ []) : (GNGD.runLoop f ps).hist.getD 0 [] = f.w := by
  cases ps with
  | nil => exact absurd rfl h
  | cons p rest => rfl

/-- Consecutive weight-history rows of the adaptation loop differ exactly
by the delta the learning rule returned at that step. -/
theorem runLoop_chain : ∀ (ps : List (ℚ × List ℚ)) (f : FilterGNGD) (k : ℕ),
    k + 1 < ps.length →
    (GNGD.runLoop f ps).hist.getD (k + 1) [] =
      addW ((GNGD.runLoop f ps).hist.getD k [])
        ((GNGD.runLoop f ps).deltas.getD k []) := by
  intro ps
  induction ps with
  | nil => intro f k h; simp at h
  | cons p rest ih =>
    intro f k h
    obtain ⟨dk, xk⟩ := p
    cases k with
    | zero =>
      simp only [GNGD.runLoop]
      rw [List.getD_cons_succ, List.getD_cons_zero, List.getD_cons_zero]
      have hrest : rest ≠ [] := by
        intro hr
        subst hr
        simp at h
      rw [runLoop_hist_head _ _ hrest]
      rfl
    | succ k' =>
      simp only [GNGD.runLoop]
      rw [List.getD_cons_succ, List.getD_cons_succ, List.getD_cons_succ]
      exact ih _ k' (by simpa using Nat.lt_of_succ_lt_succ h)

/-- The weight vector left by the adaptation loop is the last recorded
history row plus the last returned delta. -/
theorem runLoop_final : ∀ (ps : List (ℚ × List ℚ)) (f : FilterGNGD),
    ps ≠ [] →
    (GNGD.runLoop f ps).f.w =
      addW ((GNGD.runLoop f ps).hist.getD (ps.length - 1) [])
        ((GNGD.runLoop f ps).deltas.getD (ps.length - 1) []) := by
  intro ps
  induction ps with
  | nil => intro f h; exact absurd rfl h
  | cons p rest ih =>
    intro f _
    obtain ⟨dk, xk⟩ := p
    cases rest with
    | nil => rfl
    | cons q rest' =>
      simp only [GNGD.runLoop]
      have hlen : ((dk, xk) :: q :: rest').length - 1 = rest'.length + 1 := rfl
      rw [hlen, List.getD_cons_succ, List.getD_cons_succ]
      exact ih _ (by simp)

/-- Numeric coercion succeeds on wrapped numeric data and returns it. -/
theorem convList_map_num (l : List ℚ) :
    convList (l.map PyVal.num) = some l := by
  induction l with
  | nil => rfl
  | cons a t ih => simp [convList, PyVal.toNum, ih]

/-- Row-wise numeric coercion succeeds on wrapped numeric data. -/
theorem convMat_map_num (x : List (List ℚ)) :
    convMat (x.map (fun r => r.map PyVal.num)) = some x := by
  induction x with
  | nil => rfl
  | cons r t ih => simp [convMat, convList_map_num, ih]

/-- Both conversions together succeed on wrapped numeric data. -/
theorem npConvert_map_num (d : List ℚ) (x : List (List ℚ)) :
    npConvert (d.map PyVal.num) (x.map (fun r => r.map PyVal.num)) =
      some (d, x) := by
  simp [npConvert, convList_map_num, convMat_map_num]

/-- Claim C1: evaluation of the constructor at the concrete input
`FilterGNGD(n=2, mu=1/10, eps=1, ro=1/10, w=[0, 0])` — a positive integer
`n`, a real `mu`, and an explicit numeric weight vector of length `n = 2`.
Because `FilterGNGD.__init__` passes `(n, mu)` positionally into the base
signature `__init__(self, mu, n, w)`, the weight vector is validated
against `mu = 1/10` instead of `n = 2`, and construction raises
`ValueError` (the spec's `InvalidWeightSpec`) instead of succeeding. -/
theorem claim_C1 :
    FilterGNGD_init 2 (1/10) 1 (1/10) [0, 0] = .error weightMsg := by
  simp [FilterGNGD_init, init_weights, Except.map]
  norm_num

/-- Claim C2: `adapt(d, x)` on a GNGD filter never updates the weights and
always raises: after computing `y` and `e`, the update line evaluates the
unbound module-level name `learning_rule` and raises `NameError` for every
filter state and every input. -/
theorem claim_C2 (f : FilterGNGD) (d : ℚ) (x : List ℚ) :
    GNGD.adapt f d x = .error nameErrMsg := rfl

/-- Claim C6: one call of the GNGD learning rule with error `e` and input
`x` replaces `eps` by
`eps - ro*mu*e*last_e*(x·last_x) / (last_x·last_x + eps)^2` with the
pre-update `eps` in the squared denominator, returns the delta
`nu * e * x` where `nu = mu / (eps_new + x·x)` uses the freshly updated
`eps`, sets `last_e := e` and `last_x := x`, and leaves every other field
(`w`, `mu`, `ro`, `n`, `w_history`) unchanged. -/
theorem claim_C6 (f : FilterGNGD) (e : ℚ) (x : List ℚ) :
    (FilterGNGD.learning_rule f e x).1.eps =
      f.eps - f.ro * f.mu * e * f.last_e * dot x f.last_x /
        (dot f.last_x f.last_x + f.eps) ^ 2 ∧
    (FilterGNGD.learning_rule f e x).2 =
      x.map (fun xi =>
        f.mu / ((FilterGNGD.learning_rule f e x).1.eps + dot x x) * e * xi) ∧
    (FilterGNGD.learning_rule f e x).1.last_e = e ∧
    (FilterGNGD.learning_rule f e x).1.last_x = x ∧
    (FilterGNGD.learning_rule f e x).1.w = f.w ∧
    (FilterGNGD.learning_rule f e x).1.mu = f.mu ∧
    (FilterGNGD.learning_rule f e x).1.ro = f.ro ∧
    (FilterGNGD.learning_rule f e x).1.n = f.n ∧
    (FilterGNGD.learning_rule f e x).1.w_history = f.w_history :=
  ⟨rfl, rfl, rfl, rfl, rfl, rfl, rfl, rfl, rfl⟩

/-- Claim C10: `run` reads `len(x[0])` after the length check but before
the numeric conversion.  On the empty batch the row access raises an
uncaught `IndexError`, which is neither the `DimensionMismatch` nor the
`ConversionError` message; with mismatched lengths the length check fires
first (even with an empty `x`); and with an unconvertible nonempty batch
the filter-length field is rebound before the conversion failure is
raised, witnessing the evaluation order. -/
theorem claim_C10 :
    (∀ f : FilterGNGD, GNGD.run f [] [] = .error (indexErrMsg, f)) ∧
    (∀ f : FilterGNGD, GNGD.run f [PyVal.num 1] [] = .error (dimMsg, f)) ∧
    (∀ f : FilterGNGD,
      GNGD.run f [PyVal.nonNumeric] [[PyVal.nonNumeric]] =
        .error (convMsg, { f with n := ((1 : ℕ) : ℚ) })) ∧
    indexErrMsg ≠ dimMsg ∧ indexErrMsg ≠ convMsg := by
  refine ⟨fun f => rfl, fun f => rfl, fun f => rfl, by decide, by decide⟩

/-- Claim C4 counterexample: a `run` call whose arguments have equal
lengths but contain non-numeric data raises the conversion error, yet the
filter-length field `n` has already been rebound from 2 to the width 3 of
the first row — the state is not left unchanged by the failing
validation. -/
theorem claim_C4_counterexample :
    GNGD.run
      { w := [0, 0], n := 2, mu := 1/10, eps := 1, ro := 1/10,
        last_e := 0, last_x := [0, 0], w_history := none }
      [PyVal.num 1]
      [[PyVal.nonNumeric, PyVal.nonNumeric, PyVal.nonNumeric]] =
      .error (convMsg,
        { w := [0, 0], n := 3, mu := 1/10, eps := 1, ro := 1/10,
          last_e := 0, last_x := [0, 0], w_history := none }) ∧
    ({ w := [0, 0], n := 3, mu := 1/10, eps := 1, ro := 1/10,
       last_e := 0, last_x := [0, 0], w_history := none } : FilterGNGD) ≠
      { w := [0, 0], n := 2, mu := 1/10, eps := 1, ro := 1/10,
        last_e := 0, last_x := [0, 0], w_history := none } := by
  constructor
  · norm_num [GNGD.run, npConvert, convList, convMat, PyVal.toNum]
  · intro hc
    have := congrArg FilterGNGD.n hc
    norm_num at this

/-- Claim C4 (amended): `run` raises `DimensionMismatch` iff
`len(d) ≠ len(x)`, and in that case the whole filter state is unchanged;
when the lengths agree, `x` is nonempty and the data cannot be coerced,
`run` raises `ConversionError` with every field unchanged except the
filter-length field `n`, which has already been rebound to the width of
the first row of `x` (the rebinding precedes the conversion check). -/
theorem claim_C4 (f : FilterGNGD) (d : List PyVal) (x : List (List PyVal)) :
    (d.length ≠ x.length → GNGD.run f d x = .error (dimMsg, f)) ∧
    (∀ st, GNGD.run f d x = .error (dimMsg, st) →
      d.length ≠ x.length ∧ st = f) ∧
    (∀ x0 xs, x = x0 :: xs → d.length = x.length → npConvert d x = none →
      GNGD.run f d x = .error (convMsg, { f with n := (x0.length : ℚ) })) := by
  refine ⟨?_, ?_, ?_⟩
  · intro hne
    unfold GNGD.run
    rw [if_neg hne]
  · intro st h
    by_cases hl : d.length = x.length
    · exfalso
      unfold GNGD.run at h
      rw [if_pos hl] at h
      cases x with
      | nil =>
        simp only [Except.error.injEq, Prod.mk.injEq] at h
        exact absurd h.1 (by decide)
      | cons x0 xs =>
        cases hnp : npConvert d (x0 :: xs) with
        | some v =>
          obtain ⟨dq, xq⟩ := v
          simp only [hnp] at h
          cases h
        | none =>
          simp only [hnp, Except.error.injEq, Prod.mk.injEq] at h
          exact absurd h.1 (by decide)
    · refine ⟨hl, ?_⟩
      unfold GNGD.run at h
      rw [if_neg hl] at h
      simp only [Except.error.injEq, Prod.mk.injEq] at h
      exact h.2.symm
  · intro x0 xs hx hl hnc
    subst hx
    unfold GNGD.run
    rw [if_pos hl]
    simp only [hnc]

/-- A one-tap GNGD filter state used to instantiate hypothesis-bearing
theorems at a concrete input. -/
def cf4 : FilterGNGD :=
  { w := [0], n := 1, mu := 1, eps := 1, ro := 1, last_e := 0,
    last_x := [0], w_history := none }

/-- Claim C4 witness: the amended theorem applied at a concrete
mismatched-length input. -/
theorem claim_C4_witness :
    ([PyVal.num 1] : List PyVal).length ≠ ([] : List (List PyVal)).length ∧
    GNGD.run cf4 [PyVal.num 1] [] = .error (dimMsg, cf4) :=
  ⟨by decide, (claim_C4 cf4 [PyVal.num 1] []).1 (by decide)⟩

/-- Claim C5: the GNGD filter from the spec's concrete scenario
(`n=2, mu=1/10, eps=1, ro=1/10, w=[0,0]`). -/
def gf8 : FilterGNGD :=
  { w := [0, 0], n := 2, mu := 1/10, eps := 1, ro := 1/10,
    last_e := 0, last_x := [0, 0], w_history := none }

/-- The state `gf8` is left in by `run` on the batch `d=[1,2]`,
`x=[[1,0],[0,1]]`. -/
def gf8run : FilterGNGD :=
  { w := [1/20, 1/10], n := 2, mu := 1/10, eps := 1, ro := 1/10,
    last_e := 2, last_x := [0, 1], w_history := some [[0, 0], [1/20, 0]] }

/-- The state `gf8` is left in by `pretrained_run` on the same batch with
`ntrain = 1/2` and one epoch. -/
def gf8pre : FilterGNGD :=
  { w := [1/20, 1/10], n := 2, mu := 1/10, eps := 1, ro := 1/10,
    last_e := 2, last_x := [0, 1], w_history := some [[1/20, 0]] }

/-- Claim C5: whenever `run` on a GNGD filter succeeds on a batch of
`N ≥ 1` samples, the returned weight history starts at the weights at
entry, each successive row is the previous row plus the delta the
learning rule returned at that step, and the final weights are the last
row plus the last delta. -/
theorem claim_C5 (f : FilterGNGD) (d : List ℚ) (x : List (List ℚ))
    (ys es : List ℚ) (hist : List (List ℚ)) (f1 : FilterGNGD)
    (hN : 1 ≤ d.length)
    (hrun : GNGD.runQ f d x = .ok ((ys, es, hist), f1)) :
    hist.getD 0 [] = f.w ∧
    (∀ k, k + 1 < d.length →
      hist.getD (k + 1) [] =
        addW (hist.getD k []) ((GNGD.runDeltas f d x).getD k [])) ∧
    f1.w = addW (hist.getD (d.length - 1) [])
      ((GNGD.runDeltas f d x).getD (d.length - 1) []) := by
  unfold GNGD.runQ GNGD.run at hrun
  by_cases hl : (d.map PyVal.num).length =
      (x.map (fun r => r.map PyVal.num)).length
  · rw [if_pos hl] at hrun
    simp only [List.length_map] at hl
    cases x with
    | nil =>
      simp only [List.map_nil] at hrun
      cases hrun
    | cons x0 xs =>
      simp only [List.map_cons, npConvert, convList_map_num, convMat,
        convMat_map_num, List.length_map] at hrun
      simp only [Except.ok.injEq, Prod.mk.injEq] at hrun
      obtain ⟨⟨hy, he, hh⟩, hf⟩ := hrun
      have hzip : (d.zip (x0 :: xs)).length = d.length := by
        simp [List.length_zip, hl]
      have hne : d.zip (x0 :: xs) ≠ [] := by
        intro hz
        rw [hz] at hzip
        simp at hzip
        omega
      have hD : GNGD.runDeltas f d (x0 :: xs) =
          (GNGD.runLoop { f with n := ((x0.length : ℕ) : ℚ) }
            (d.zip (x0 :: xs))).deltas := rfl
      refine ⟨?_, ?_, ?_⟩
      · rw [← hh, runLoop_hist_head _ _ hne]
      · intro k hk
        rw [← hh, hD, runLoop_chain _ _ k (by rw [hzip]; exact hk)]
      · rw [← hf, ← hh, hD]
        have := runLoop_final (d.zip (x0 :: xs))
          { f with n := ((x0.length : ℕ) : ℚ) } hne
        rw [hzip] at this
        exact this
  · rw [if_neg hl] at hrun
    cases hrun

/-- Claim C5 witness: the history invariant instantiated on the spec's
concrete scenario (`d=[1,2]`, `x=[[1,0],[0,1]]`); the step at `k = 0` and
the final-weight equation are both obtained from `claim_C5`. -/
theorem claim_C5_witness :
    1 ≤ ([(1:ℚ), 2]).length ∧
    GNGD.runQ gf8 [1, 2] [[1, 0], [0, 1]] =
      .ok (([0, 0], [1, 2], [[0, 0], [1/20, 0]]), gf8run) ∧
    [[(0:ℚ), 0], [1/20, 0]].getD 0 [] = gf8.w ∧
    [[(0:ℚ), 0], [1/20, 0]].getD (0 + 1) [] =
      addW ([[(0:ℚ), 0], [1/20, 0]].getD 0 [])
        ((GNGD.runDeltas gf8 [1, 2] [[1, 0], [0, 1]]).getD 0 []) ∧
    gf8run.w =
      addW ([[(0:ℚ), 0], [1/20, 0]].getD (([(1:ℚ), 2]).length - 1) [])
        ((GNGD.runDeltas gf8 [1, 2] [[1, 0], [0, 1]]).getD
          (([(1:ℚ), 2]).length - 1) []) := by
  have hrun : GNGD.runQ gf8 [1, 2] [[1, 0], [0, 1]] =
      .ok (([0, 0], [1, 2], [[0, 0], [1/20, 0]]), gf8run) := by
    simp [GNGD.runQ, GNGD.run, npConvert, convList, convMat, PyVal.toNum,
      GNGD.runLoop, FilterGNGD.learning_rule, GNGD.predict, dot, addW, gf8,
      gf8run]
    norm_num
  have h := claim_C5 gf8 [1, 2] [[1, 0], [0, 1]] [0, 0] [1, 2]
    [[0, 0], [1/20, 0]] gf8run (by decide) hrun
  exact ⟨by decide, hrun, h.1, h.2.1 0 (by decide), h.2.2⟩

/-- Claim C9 (amended): `pretrained_run(d, x, ntrain, epochs)` splits the
batch at `⌊N * ntrain⌋`, performs `epochs` training runs on the first part
carrying the adapted state from each epoch to the next, then one run on
the remaining part, and returns that final call's triple unchanged — so
its third component is the test run's weight-history matrix (row k = the
weights before the k-th test update), not a 1-dimensional final-weight
vector. -/
theorem claim_C9 (f : FilterGNGD) (d : List PyVal) (x : List (List PyVal))
    (ntrain : ℚ) (epochs : ℕ)
    (res : (List ℚ × List ℚ × List (List ℚ)) × FilterGNGD)
    (h : GNGD.pretrained_run f d x ntrain epochs = .ok res) :
    ∃ f1, GNGD.trainLoop (d.take ⌊(d.length : ℚ) * ntrain⌋.toNat)
        (x.take ⌊(d.length : ℚ) * ntrain⌋.toNat) epochs f = .ok f1 ∧
      GNGD.run f1 (d.drop ⌊(d.length : ℚ) * ntrain⌋.toNat)
        (x.drop ⌊(d.length : ℚ) * ntrain⌋.toNat) = .ok res := by
  simp only [GNGD.pretrained_run] at h
  cases htr : GNGD.trainLoop (d.take ⌊(d.length : ℚ) * ntrain⌋.toNat)
      (x.take ⌊(d.length : ℚ) * ntrain⌋.toNat) epochs f with
  | ok f1 =>
    rw [htr] at h
    exact ⟨f1, rfl, h⟩
  | error err =>
    rw [htr] at h
    cases h

/-- Claim C9 counterexample: on the spec's concrete scenario with
`ntrain = 1/2` and one epoch, the third component of the returned triple
is the test run's weight-history matrix `[[1/20, 0]]`, which differs from
the final weight vector `[1/20, 1/10]` — the claim that the third
component is the 1-dimensional vector of final weights is false. -/
theorem claim_C9_counterexample :
    GNGD.pretrained_run gf8 [PyVal.num 1, PyVal.num 2]
      [[PyVal.num 1, PyVal.num 0], [PyVal.num 0, PyVal.num 1]] (1/2) 1 =
      .ok (([0], [2], [[1/20, 0]]), gf8pre) ∧
    gf8pre.w = [1/20, 1/10] ∧
    ([[(1/20 : ℚ), 0]] : List (List ℚ)) ≠ [gf8pre.w] := by
  refine ⟨?_, rfl, ?_⟩
  · norm_num [GNGD.pretrained_run, GNGD.trainLoop, GNGD.run, npConvert,
      convList, convMat, PyVal.toNum, GNGD.runLoop, FilterGNGD.learning_rule,
      GNGD.predict, dot, addW, gf8, gf8pre]
  · norm_num [gf8pre]

/-- Claim C9 witness: the amended theorem applied on the concrete
scenario (`ntrain = 1/2`, one epoch). -/
theorem claim_C9_witness :
    ∃ f1, GNGD.trainLoop
        (([PyVal.num 1, PyVal.num 2]).take
          ⌊(([PyVal.num 1, PyVal.num 2] : List PyVal).length : ℚ) * (1/2)⌋.toNat)
        (([[PyVal.num 1, PyVal.num 0], [PyVal.num 0, PyVal.num 1]]).take
          ⌊(([PyVal.num 1, PyVal.num 2] : List PyVal).length : ℚ) * (1/2)⌋.toNat)
        1 gf8 = .ok f1 ∧
      GNGD.run f1
        (([PyVal.num 1, PyVal.num 2]).drop
          ⌊(([PyVal.num 1, PyVal.num 2] : List PyVal).length : ℚ) * (1/2)⌋.toNat)
        (([[PyVal.num 1, PyVal.num 0], [PyVal.num 0, PyVal.num 1]]).drop
          ⌊(([PyVal.num 1, PyVal.num 2] : List PyVal).length : ℚ) * (1/2)⌋.toNat) =
        .ok (([0], [2], [[1/20, 0]]), gf8pre) := by
  have h9 : GNGD.pretrained_run gf8 [PyVal.num 1, PyVal.num 2]
      [[PyVal.num 1, PyVal.num 0], [PyVal.num 0, PyVal.num 1]] (1/2) 1 =
      .ok (([0], [2], [[1/20, 0]]), gf8pre) := by
    norm_num [GNGD.pretrained_run, GNGD.trainLoop, GNGD.run, npConvert,
      convList, convMat, PyVal.toNum, GNGD.runLoop, FilterGNGD.learning_rule,
      GNGD.predict, dot, addW, gf8, gf8pre]
  exact claim_C9 gf8 [PyVal.num 1, PyVal.num 2]
    [[PyVal.num 1, PyVal.num 0], [PyVal.num 0, PyVal.num 1]] (1/2) 1 _ h9

/-- State of an `AdaptiveFilterAP` instance (base_filter.py lines
211-220), typed by the filter length `n` and the projection order:
`w`, `mu`, `eps`, the sliding input window `x_mem` (n × order, most
recent column first), the target window `d_mem`, and the per-window
output/error vectors `y_mem`/`e_mem` (initially `False` in Python; here
arbitrary functions, and never read before being written by `adapt` or
`run`).  The precomputed constants `ide_eps = eps * identity(order)` and
`ide = identity(order)` are inlined as `eps • 1` and `1` where used;
`self.n` is the type index, and the history matrix is returned by `run`
rather than stored (spec data-model lifecycle). -/
structure APFilter (n order : ℕ) where
  w : Fin n → ℚ
  mu : ℚ
  eps : ℚ
  x_mem : Matrix (Fin n) (Fin order) ℚ
  d_mem : Fin order → ℚ
  y_mem : Fin order → ℚ
  e_mem : Fin order → ℚ

/-- The window shift `self.x_mem[:, 1:] = self.x_mem[:, :-1];
self.x_mem[:, 0] = x` (base_filter.py lines 233-234): every column moves
one slot to the right (the oldest column is dropped) and the new input
becomes column 0. -/
def shiftCols {n order : ℕ} (M : Matrix (Fin n) (Fin order) ℚ)
    (x : Fin n → ℚ) : Matrix (Fin n) (Fin order) ℚ :=
  Matrix.of fun i j =>
    if j.val = 0 then x i
    else M i ⟨j.val - 1, by have hj := j.isLt; omega⟩

/-- The target shift `self.d_mem[1:] = self.d_mem[:-1];
self.d_mem[0] = d` (base_filter.py lines 235-236). -/
def shiftVec {order : ℕ} (v : Fin order → ℚ) (d : ℚ) : Fin order → ℚ :=
  fun j =>
    if j.val = 0 then d
    else v ⟨j.val - 1, by have hj := j.isLt; omega⟩

/-- `np.linalg.solve(A, B)` modelled over ℚ (an external primitive per
the spec): `A⁻¹ * B`, written with the computable adjugate formula.  For
a singular `A` numpy raises; `linSolve_solves` below states the defining
property in the invertible case. -/
def linSolve {m : ℕ} (A B : Matrix (Fin m) (Fin m) ℚ) :
    Matrix (Fin m) (Fin m) ℚ :=
  (A.det)⁻¹ • (A.adjugate * B)

/-- In the invertible case `linSolve A B` is the solution `Z` of
`A * Z = B`, the defining property of `np.linalg.solve`. -/
theorem linSolve_solves {m : ℕ} (A B : Matrix (Fin m) (Fin m) ℚ)
    (h : A.det ≠ 0) : A * linSolve A B = B := by
  unfold linSolve
  rw [Matrix.mul_smul, ← Matrix.mul_assoc, Matrix.mul_adjugate,
    Matrix.smul_mul, Matrix.one_mul, smul_smul,
    inv_mul_cancel₀ h, one_smul]

/-- `AdaptiveFilterAP.adapt(self, d, x)` (base_filter.py lines 222-244):
shift both windows, compute `y_mem = x_mem.T · w` and
`e_mem = d_mem - y_mem`, solve `(x_mem.T · x_mem + ide_eps) · z = ide`,
compute `dw = x_mem · (z · e_mem)`, and update `w += mu * dw`. -/
def APadapt {n order : ℕ} (f : APFilter n order) (d : ℚ)
    (x : Fin n → ℚ) : APFilter n order :=
  let x_mem1 := shiftCols f.x_mem x
  let d_mem1 := shiftVec f.d_mem d
  let y_mem1 := x_mem1.transpose.mulVec f.w
  let e_mem1 := d_mem1 - y_mem1
  let dw_part1 := x_mem1.transpose * x_mem1 +
    f.eps • (1 : Matrix (Fin order) (Fin order) ℚ)
  let dw_part2 := linSolve dw_part1 1
  let dw := x_mem1.mulVec (dw_part2.mulVec e_mem1)
  { w := f.w + f.mu • dw, mu := f.mu, eps := f.eps,
    x_mem := x_mem1, d_mem := d_mem1, y_mem := y_mem1, e_mem := e_mem1 }

/-- Modelled from the spec: `FilterAP.learning_rule(self, e_mem, x_mem)`
— the learning rule of the concrete affine-projection filter class that
`AdaptiveFilterAP.run` invokes via `self.learning_rule(self.e_mem,
self.x_mem)` (base_filter.py line 298) — is not under src/ (only its
caller is).  Spec §4.4 and the §9 design requirement fix it as the AP
delta exposed as a learning rule: solve the regularized system
`(x_mem.T · x_mem + eps·I) · z = I` and return `mu · x_mem · (z ·
e_mem)`. -/
def FilterAP.learning_rule {n order : ℕ} (f : APFilter n order)
    (e_mem : Fin order → ℚ) (x_mem : Matrix (Fin n) (Fin order) ℚ) :
    Fin n → ℚ :=
  let dw_part1 := x_mem.transpose * x_mem +
    f.eps • (1 : Matrix (Fin order) (Fin order) ℚ)
  let dw_part2 := linSolve dw_part1 1
  f.mu • x_mem.mulVec (dw_part2.mulVec e_mem)

/-- The adaptation loop of `AdaptiveFilterAP.run` (base_filter.py lines
285-298), which re-inlines the shift and the `y_mem`/`e_mem` computation
of `adapt` verbatim, records `y[k] = y_mem[0]`, `e[k] = e_mem[0]` and the
pre-update weight row, and updates
`self.w += self.learning_rule(self.e_mem, self.x_mem)`.  Stated for a
positive window depth `order + 1`, since `y_mem[0]` requires a nonempty
window (the source default is `order=5`). -/
def APrunLoop {n order : ℕ} :
    APFilter n (order + 1) → List (ℚ × (Fin n → ℚ)) →
      (List ℚ × List ℚ × List (Fin n → ℚ)) × APFilter n (order + 1)
  | f, [] => (([], [], []), f)
  | f, (dk, xk) :: rest =>
    let x_mem1 := shiftCols f.x_mem xk
    let d_mem1 := shiftVec f.d_mem dk
    let y_mem1 := x_mem1.transpose.mulVec f.w
    let e_mem1 := d_mem1 - y_mem1
    let f1 : APFilter n (order + 1) :=
      { f with x_mem := x_mem1, d_mem := d_mem1,
               y_mem := y_mem1, e_mem := e_mem1 }
    let f2 : APFilter n (order + 1) :=
      { f1 with w := f1.w + FilterAP.learning_rule f1 f1.e_mem f1.x_mem }
    let r := APrunLoop f2 rest
    ((y_mem1 0 :: r.1.1, e_mem1 0 :: r.1.2.1, f.w :: r.1.2.2), r.2)

/-- `AdaptiveFilterAP.run(self, d, x)` (base_filter.py lines 246-299):
length check, `self.n = len(x[0])` (an `IndexError` on an empty batch;
the identity here because every row is typed to width `n`), numeric
conversion (vacuous: the rows are numeric by type), then the inline
adaptation loop.  Returns `(y, e, w_history)` and the final state. -/
def APrun {n order : ℕ} (f : APFilter n (order + 1)) (d : List ℚ)
    (x : List (Fin n → ℚ)) :
    Except String
      ((List ℚ × List ℚ × List (Fin n → ℚ)) × APFilter n (order + 1)) :=
  if d.length = x.length then
    match x with
    | [] => .error indexErrMsg
    | _ :: _ => .ok (APrunLoop f (d.zip x))
  else .error dimMsg

/-- The reference behaviour for claim C3: the same batch processed by
repeated `adapt` calls, recording after the k-th call `y[k] = y_mem[0]`,
`e[k] = e_mem[0]` and, before it, the pre-call weight row. -/
def APadaptTrace {n order : ℕ} :
    APFilter n (order + 1) → List (ℚ × (Fin n → ℚ)) →
      (List ℚ × List ℚ × List (Fin n → ℚ)) × APFilter n (order + 1)
  | f, [] => (([], [], []), f)
  | f, (dk, xk) :: rest =>
    let f1 := APadapt f dk xk
    let r := APadaptTrace f1 rest
    ((f1.y_mem 0 :: r.1.1, f1.e_mem 0 :: r.1.2.1, f.w :: r.1.2.2), r.2)

/-- The filter state after a sequence of `adapt` calls. -/
def APadaptFold {n order : ℕ} (f : APFilter n order)
    (ps : List (ℚ × (Fin n → ℚ))) : APFilter n order :=
  ps.foldl (fun g p => APadapt g p.1 p.2) f

/-- Claim C7: one `adapt(d, x)` call on an affine-projection filter
shifts `x_mem` right by one column inserting `x` as column 0 (the shift
`shiftCols` drops the oldest column), shifts `d_mem` inserting `d` at
index 0, computes `y_mem = x_mem.T · w` and `e_mem = d_mem - y_mem`,
solves the regularized system `(x_mem.T · x_mem + eps·I) · z = I`
(`linSolve`, whose defining property is `linSolve_solves`), computes
`dw = x_mem · (z · e_mem)`, updates `w ← w + mu·dw`, and leaves `mu` and
`eps` unchanged. -/
theorem claim_C7 {n order : ℕ} (f : APFilter n order) (d : ℚ)
    (x : Fin n → ℚ) :
    (APadapt f d x).x_mem = shiftCols f.x_mem x ∧
    (APadapt f d x).d_mem = shiftVec f.d_mem d ∧
    (APadapt f d x).y_mem = (shiftCols f.x_mem x).transpose.mulVec f.w ∧
    (APadapt f d x).e_mem =
      shiftVec f.d_mem d - (shiftCols f.x_mem x).transpose.mulVec f.w ∧
    (APadapt f d x).w = f.w + f.mu •
      (shiftCols f.x_mem x).mulVec
        ((linSolve ((shiftCols f.x_mem x).transpose * shiftCols f.x_mem x +
            f.eps • (1 : Matrix (Fin order) (Fin order) ℚ)) 1).mulVec
          (shiftVec f.d_mem d -
            (shiftCols f.x_mem x).transpose.mulVec f.w)) ∧
    (APadapt f d x).mu = f.mu ∧
    (APadapt f d x).eps = f.eps :=
  ⟨rfl, rfl, rfl, rfl, rfl, rfl, rfl⟩

/-- Column `j` of the window after any sequence of `adapt` calls longer
than `j` is the input supplied `j` calls ago. -/
theorem APadaptFold_x_mem {n order : ℕ} :
    ∀ (ps : List (ℚ × (Fin n → ℚ))) (f : APFilter n order) (j : Fin order)
      (i : Fin n), j.val < ps.length →
      (APadaptFold f ps).x_mem i j =
        (ps.getD (ps.length - 1 - j.val) (0, fun _ => 0)).2 i := by
  intro ps
  induction ps using List.reverseRecOn with
  | nil => intro f j i h; simp at h
  | append_singleton ps p ih =>
    intro f j i h
    simp only [APadaptFold, List.foldl_append, List.foldl_cons,
      List.foldl_nil]
    by_cases hj : j.val = 0
    · have hL : (APadapt (ps.foldl (fun g q => APadapt g q.1 q.2) f)
          p.1 p.2).x_mem i j = p.2 i := by
        simp [APadapt, shiftCols, hj]
      rw [hL, List.length_append, List.length_singleton]
      have hidx : ps.length + 1 - 1 - j.val = ps.length := by omega
      rw [hidx, List.getD_append_right ps [p] _ _ (le_refl _)]
      simp
    · have hj1 : j.val - 1 < order := by have := j.isLt; omega
      have hL : (APadapt (ps.foldl (fun g q => APadapt g q.1 q.2) f)
          p.1 p.2).x_mem i j =
          (ps.foldl (fun g q => APadapt g q.1 q.2) f).x_mem i
            ⟨j.val - 1, hj1⟩ := by
        simp [APadapt, shiftCols, hj]
      rw [hL]
      have hlt : j.val - 1 < ps.length := by
        rw [List.length_append, List.length_singleton] at h
        omega
      have := ih f ⟨j.val - 1, hj1⟩ i hlt
      simp only [APadaptFold] at this
      rw [this, List.length_append, List.length_singleton]
      have hplen : 1 ≤ ps.length := by omega
      have hidx2 : ps.length + 1 - 1 - j.val = ps.length - j.val := by omega
      rw [hidx2, List.getD_append ps [p] _ _ (by omega)]
      have hidx3 : ps.length - 1 - (j.val - 1) = ps.length - j.val := by
        omega
      rw [hidx3]

/-- Claim C8: after `m ≥ order` calls to `adapt` with inputs supplied in
order, column `j` of `x_mem` equals the input supplied `j` calls ago
(column 0 is the most recent input, column `order - 1` the oldest kept
one): entrywise, column `j` equals entry `m - 1 - j` of the supplied
sequence. -/
theorem claim_C8 {n order : ℕ} (f : APFilter n order)
    (ps : List (ℚ × (Fin n → ℚ))) (h : order ≤ ps.length) (j : Fin order)
    (i : Fin n) :
    (APadaptFold f ps).x_mem i j =
      (ps.getD (ps.length - 1 - j.val) (0, fun _ => 0)).2 i :=
  APadaptFold_x_mem ps f j i (lt_of_lt_of_le j.isLt h)

/-- Claim C8: a zero-initialised AP filter with `n = 1`, `order = 2`. -/
def cAP8 : APFilter 1 2 :=
  { w := fun _ => 0, mu := 1, eps := 1, x_mem := Matrix.of fun _ _ => 0,
    d_mem := fun _ => 0, y_mem := fun _ => 0, e_mem := fun _ => 0 }

/-- Two concrete samples fed to `cAP8`. -/
def cps8 : List (ℚ × (Fin 1 → ℚ)) := [(1, fun _ => 2), (3, fun _ => 4)]

/-- Claim C8 witness: the window invariant applied after two `adapt`
calls on an order-2 filter, at column 0. -/
theorem claim_C8_witness :
    2 ≤ cps8.length ∧
    (APadaptFold cAP8 cps8).x_mem 0 0 =
      (cps8.getD (cps8.length - 1 - (0 : Fin 2).val) (0, fun _ => 0)).2 0 :=
  ⟨by decide, claim_C8 cAP8 cps8 (by decide) 0 0⟩

/-- The inline adaptation loop of `AdaptiveFilterAP.run` computes, step
by step, exactly the states and recorded values of the corresponding
`adapt` calls (with the learning rule modelled from the spec). -/
theorem APrunLoop_eq_trace {n order : ℕ} :
    ∀ (ps : List (ℚ × (Fin n → ℚ))) (f : APFilter n (order + 1)),
      APrunLoop f ps = APadaptTrace f ps := by
  intro ps
  induction ps with
  | nil => intro f; rfl
  | cons p rest ih =>
    intro f
    obtain ⟨dk, xk⟩ := p
    simp only [APrunLoop, APadaptTrace, ih]
    rfl

/-- The final state of the traced adapt sequence is the fold of `adapt`
over the batch. -/
theorem APadaptTrace_snd {n order : ℕ} :
    ∀ (ps : List (ℚ × (Fin n → ℚ))) (f : APFilter n (order + 1)),
      (APadaptTrace f ps).2 = APadaptFold f ps := by
  intro ps
  induction ps with
  | nil => intro f; rfl
  | cons p rest ih =>
    intro f
    obtain ⟨dk, xk⟩ := p
    simp only [APadaptTrace, APadaptFold, List.foldl_cons]
    exact ih (APadapt f dk xk)

/-- Claim C3: on every equal-length nonempty batch, `run` on an
affine-projection filter returns exactly the per-step outputs of the
corresponding sequence of `adapt` calls — `y[k]` and `e[k]` are the
window slots `y_mem[0]` / `e_mem[0]` after the k-th adapt, the history
rows are the pre-call weights — and leaves the filter in the state the
`adapt` sequence produces.  (`FilterAP.learning_rule`, invoked by `run`
but not under src/, is modelled from the spec; nonemptiness is `run`'s
documented precondition, cf. claim C10.) -/
theorem claim_C3 {n order : ℕ} (f : APFilter n (order + 1)) (d : List ℚ)
    (x : List (Fin n → ℚ)) (hlen : d.length = x.length) (hne : x ≠ []) :
    APrun f d x = .ok (APadaptTrace f (d.zip x)) ∧
    (APadaptTrace f (d.zip x)).2 = APadaptFold f (d.zip x) := by
  constructor
  · unfold APrun
    rw [if_pos hlen]
    cases x with
    | nil => exact absurd rfl hne
    | cons x0 xs => rw [APrunLoop_eq_trace]
  · exact APadaptTrace_snd _ f

/-- Claim C3: a zero-initialised AP filter with `n = 1`, `order = 1`. -/
def cAP3 : APFilter 1 1 :=
  { w := fun _ => 0, mu := 1, eps := 1, x_mem := Matrix.of fun _ _ => 0,
    d_mem := fun _ => 0, y_mem := fun _ => 0, e_mem := fun _ => 0 }

/-- A concrete one-sample input row. -/
def cx3 : Fin 1 → ℚ := fun _ => 2

/-- Claim C3 witness: the run/adapt equivalence applied on a concrete
one-sample batch. -/
theorem claim_C3_witness :
    ([(1:ℚ)]).length = ([cx3]).length ∧ ([cx3] : List (Fin 1 → ℚ)) ≠ [] ∧
    APrun cAP3 [1] [cx3] = .ok (APadaptTrace cAP3 (([(1:ℚ)]).zip [cx3])) ∧
    (APadaptTrace cAP3 (([(1:ℚ)]).zip [cx3])).2 =
      APadaptFold cAP3 (([(1:ℚ)]).zip [cx3]) := by
  have h := claim_C3 cAP3 [1] [cx3] rfl (by simp)
  exact ⟨rfl, by simp, h.1, h.2⟩
